import Mathlib

/-
Verification of the bulk-write layer of the mongo-cxx-driver fragment.

Part I embeds the one source file, src/src/mongocxx/bulk_write.cpp: the
append member function of bulk_write, which dispatches on the write type,
builds a per-operation options document, and forwards one call to the
native libmongoc bulk-operation handle.

Part II models, from the specification, the batched write executor design
(Batch Builder, Execution Engine, Result Aggregator) whose code is not in
the source fragment: the source delegates execution to the native library,
so the spec's general design is embedded from its own words.
-/

set_option autoImplicit false

namespace MongoBulk

/-! ### Part I: embedding of src/src/mongocxx/bulk_write.cpp -/

/-- The mongocxx write_type enum: one tag per kind of write operation
(bulk_write.cpp switches over operation.type()). -/
inductive WriteType where
  | k_insert_one
  | k_update_one
  | k_update_many
  | k_delete_one
  | k_delete_many
  | k_replace_one
deriving DecidableEq, Repr

/-- The mongocxx model::write variant, with exactly the fields
bulk_write::append reads from each model class: insert_one carries a
document; update_one and update_many carry filter, update, optional
collation and optional upsert; delete_one and delete_many carry filter and
optional collation (no upsert member exists on them); replace_one carries
filter, replacement, optional collation and optional upsert. Documents are
an abstract type parameter. -/
inductive ModelWrite (Doc : Type) where
  | insert_one (document : Doc)
  | update_one (filter update : Doc) (collation : Option Doc) (upsert : Option Bool)
  | update_many (filter update : Doc) (collation : Option Doc) (upsert : Option Bool)
  | delete_one (filter : Doc) (collation : Option Doc)
  | delete_many (filter : Doc) (collation : Option Doc)
  | replace_one (filter replacement : Doc) (collation : Option Doc) (upsert : Option Bool)
deriving DecidableEq

/-- The write type of a model write (model::write::type()). -/
def ModelWrite.writeType {Doc : Type} : ModelWrite Doc → WriteType
  | .insert_one _ => .k_insert_one
  | .update_one _ _ _ _ => .k_update_one
  | .update_many _ _ _ _ => .k_update_many
  | .delete_one _ _ => .k_delete_one
  | .delete_many _ _ => .k_delete_many
  | .replace_one _ _ _ _ => .k_replace_one

/-- A value appended to the per-operation options document: the collation
entry holds a document, the upsert entry holds a boolean. -/
inductive OptValue (Doc : Type) where
  | doc (d : Doc)
  | flag (b : Bool)
deriving DecidableEq

/-- The per-operation options document bulk_write::append builds with
bsoncxx::builder::basic::document: an ordered key-value list. -/
abbrev OptionsDoc (Doc : Type) := List (String × OptValue Doc)

/-- Options builder for the update_one / update_many / replace_one cases:
append the collation entry when collation is set, then the upsert entry
when upsert is set (the order the source appends them). -/
def buildUpdateOptions {Doc : Type} (collation : Option Doc) (upsert : Option Bool) :
    OptionsDoc Doc :=
  (match collation with
   | some c => [("collation", OptValue.doc c)]
   | none => []) ++
  (match upsert with
   | some u => [("upsert", OptValue.flag u)]
   | none => [])

/-- Options builder for the delete_one / delete_many cases: only the
collation entry, when set (the delete models have no upsert member). -/
def buildDeleteOptions {Doc : Type} (collation : Option Doc) : OptionsDoc Doc :=
  match collation with
  | some c => [("collation", OptValue.doc c)]
  | none => []

/-- The per-operation options document append builds for a given model
write, or none for insert_one, whose case builds no options document. -/
def appendOptionsDoc {Doc : Type} : ModelWrite Doc → Option (OptionsDoc Doc)
  | .insert_one _ => none
  | .update_one _ _ col ups => some (buildUpdateOptions col ups)
  | .update_many _ _ col ups => some (buildUpdateOptions col ups)
  | .delete_one _ col => some (buildDeleteOptions col)
  | .delete_many _ col => some (buildDeleteOptions col)
  | .replace_one _ _ col ups => some (buildUpdateOptions col ups)

/-- The calls bulk_write.cpp can make on the native libmongoc
bulk-operation handle. The first six are the accumulation calls made by
append; execute_op stands for mongoc_bulk_operation_execute, the
submission call of the execute path (declared in the repository's
libmongoc binding headers, not called anywhere in this source file). -/
inductive NativeCall (Doc : Type) where
  | insert (doc : Doc)
  | update_one_with_opts (filter update : Doc) (opts : OptionsDoc Doc)
  | update_many_with_opts (filter update : Doc) (opts : OptionsDoc Doc)
  | remove_one_with_opts (filter : Doc) (opts : OptionsDoc Doc)
  | remove_many_with_opts (filter : Doc) (opts : OptionsDoc Doc)
  | replace_one_with_opts (filter replacement : Doc) (opts : OptionsDoc Doc)
  | execute_op
deriving DecidableEq

/-- The single native call bulk_write::append issues for a model write,
with the arguments the source passes. -/
def appendCall {Doc : Type} : ModelWrite Doc → NativeCall Doc
  | .insert_one d => .insert d
  | .update_one f u col ups => .update_one_with_opts f u (buildUpdateOptions col ups)
  | .update_many f u col ups => .update_many_with_opts f u (buildUpdateOptions col ups)
  | .delete_one f col => .remove_one_with_opts f (buildDeleteOptions col)
  | .delete_many f col => .remove_many_with_opts f (buildDeleteOptions col)
  | .replace_one f r col ups => .replace_one_with_opts f r (buildUpdateOptions col ups)

/-- The list of native calls one append issues: exactly one. -/
def appendNativeCalls {Doc : Type} (op : ModelWrite Doc) : List (NativeCall Doc) :=
  [appendCall op]

/-- A bson_error_t: the native error record filled in by a failing
*_with_opts call and carried by the thrown logic_error. -/
structure BsonError where
  code : Nat
  message : String
deriving DecidableEq

/-- bulk_write::append. The insert_one case calls
mongoc_bulk_operation_insert, which returns no status: no failure path.
Every other case calls the matching *_with_opts native function; the
native library's verdict is modelled by the oracle nativeOk and, on
failure, the error record it fills in by nativeErr. On native failure the
source throws a logic_error carrying that error
(throw_exception of logic_error); on success append returns, and the call
it made is recorded. -/
def bulkAppend {Doc : Type} (nativeOk : NativeCall Doc → Bool)
    (nativeErr : NativeCall Doc → BsonError) (op : ModelWrite Doc) :
    Except BsonError (NativeCall Doc) :=
  match op with
  | .insert_one d => .ok (.insert d)
  | _ =>
    let c := appendCall op
    if nativeOk c then .ok c else .error (nativeErr c)

/-! ### Part II: the spec's batched write executor design -/

/-- Modelled from the spec: the Operation kind enum of section 3's data
model (InsertOne, UpdateOne, UpdateMany, DeleteOne, DeleteMany,
ReplaceOne); the execution-engine code this belongs to is delegated to the
native library and is not under the source fragment. -/
inductive OpKind where
  | insertOne
  | updateOne
  | updateMany
  | deleteOne
  | deleteMany
  | replaceOne
deriving DecidableEq, Repr

/-- Modelled from the spec: an Operation of section 3 — a kind, an
optional filter, a payload document, an optional collation document and an
optional upsert flag. -/
structure Operation (Doc : Type) where
  kind : OpKind
  filter : Option Doc
  payload : Doc
  collation : Option Doc
  upsert : Option Bool
deriving DecidableEq

/-- Modelled from the spec: BatchOptions of section 3 — ordered flag,
optional write concern (abstract), optional bypass-validation flag. -/
structure BatchOptions where
  ordered : Bool
  writeConcern : Option Nat
  bypassValidation : Option Bool
deriving DecidableEq

/-- Modelled from the spec: a Batch of section 3 — an ordered sequence of
Operations plus BatchOptions, with the frozen-state flag of section 4.1
that is set once execution begins. -/
structure Batch (Doc : Type) where
  ops : List (Operation Doc)
  opts : BatchOptions
  executed : Bool
deriving DecidableEq

/-- Modelled from the spec: the append-time failures of the error
taxonomy, section 7 — InvalidArgument for a malformed Operation and
InvalidState for an append after the batch is frozen. -/
inductive BuilderError where
  | invalidArgument
  | invalidState
deriving DecidableEq, Repr

/-- Modelled from the spec: which kinds accept an upsert option. The
source builds an upsert entry only for update_one, update_many and
replace_one; DeleteOne forbids upsert (section 4.1), and InsertOne has no
options at all. -/
def kindAllowsUpsert : OpKind → Bool
  | .updateOne => true
  | .updateMany => true
  | .replaceOne => true
  | _ => false

/-- Modelled from the spec: which kinds accept a collation option. Every
kind except InsertOne builds a collation entry in the source. -/
def kindAllowsCollation : OpKind → Bool
  | .insertOne => false
  | _ => true

/-- Modelled from the spec: the Batch Builder validation of section 4.1 —
InvalidArgument when the filter is missing for a non-insert kind, or when
upsert or collation is set on a kind that forbids it. -/
def validateOperation {Doc : Type} (op : Operation Doc) : Except BuilderError Unit :=
  if (op.kind != OpKind.insertOne) && op.filter.isNone then .error .invalidArgument
  else if op.upsert.isSome && !kindAllowsUpsert op.kind then .error .invalidArgument
  else if op.collation.isSome && !kindAllowsCollation op.kind then .error .invalidArgument
  else .ok ()

/-- Modelled from the spec: Batch Builder append, section 4.1 — rejects
appends once the batch has begun execution (InvalidState), validates the
operation (InvalidArgument), and otherwise appends it to the end of the
batch's ordered sequence; no I/O. -/
def Batch.append {Doc : Type} (b : Batch Doc) (op : Operation Doc) :
    Except BuilderError (Batch Doc) :=
  if b.executed then .error .invalidState
  else
    match validateOperation op with
    | .error e => .error e
    | .ok () => .ok { b with ops := b.ops ++ [op] }

/-- Modelled from the spec: an OperationOutcome of section 3 — Inserted,
Matched with counts and optional upserted id, Deleted with a count, or a
per-operation write Error with code and message (the engine attaches the
operation's index when it records the error). -/
inductive OperationOutcome where
  | inserted
  | matched (count modifiedCount : Nat) (upsertedId : Option Nat)
  | deleted (count : Nat)
  | error (code : Nat) (message : String)
deriving DecidableEq

/-- Whether an outcome is a per-operation write error. -/
def OperationOutcome.isError : OperationOutcome → Bool
  | .error _ _ => true
  | _ => false

/-- Modelled from the spec: the result of one WriteExecutor.perform call,
section 6 — either an OperationOutcome, or a transport/connection fault
distinguishable from a per-operation write error (section 4.2 step 5). -/
inductive PerformResult where
  | outcome (o : OperationOutcome)
  | fault (code : Nat) (message : String)
deriving DecidableEq

/-- Whether a perform result is a transport fault. -/
def PerformResult.isFault : PerformResult → Bool
  | .fault _ _ => true
  | _ => false

/-- Whether a perform result halts ordered iteration: a transport fault
halts in both modes, a write-error outcome additionally halts ordered
mode. -/
def haltsMode (ordered : Bool) : PerformResult → Bool
  | .fault _ _ => true
  | .outcome o => ordered && o.isError

/-- Modelled from the spec: one entry of the writeErrors sequence of a
BulkResult — index, code, message (section 3). -/
structure WriteErrorEntry where
  index : Nat
  code : Nat
  message : String
deriving DecidableEq

/-- Modelled from the spec: the aggregate BulkResult of section 3 —
counts, upserted ids keyed by index, ordered writeErrors, and an optional
write-concern error. -/
structure BulkResult where
  insertedCount : Nat
  matchedCount : Nat
  modifiedCount : Nat
  deletedCount : Nat
  upsertedCount : Nat
  upsertedIds : List (Nat × Nat)
  writeErrors : List WriteErrorEntry
  writeConcernError : Option (Nat × String)
deriving DecidableEq

/-- The all-zero, all-empty BulkResult the aggregation fold starts from. -/
def emptyResult : BulkResult :=
  { insertedCount := 0, matchedCount := 0, modifiedCount := 0, deletedCount := 0
    upsertedCount := 0, upsertedIds := [], writeErrors := [], writeConcernError := none }

/-- Modelled from the spec: one step of the Result Aggregator fold of
section 4.3 — increment the counter matching the outcome kind, append
upserted-id and write-error entries keyed by the operation's original
index. -/
def applyOutcome (r : BulkResult) (idx : Nat) : OperationOutcome → BulkResult
  | .inserted => { r with insertedCount := r.insertedCount + 1 }
  | .matched c m u =>
    let r₁ := { r with matchedCount := r.matchedCount + c, modifiedCount := r.modifiedCount + m }
    match u with
    | some id =>
      { r₁ with upsertedCount := r₁.upsertedCount + 1, upsertedIds := r₁.upsertedIds ++ [(idx, id)] }
    | none => r₁
  | .deleted c => { r with deletedCount := r.deletedCount + c }
  | .error c m => { r with writeErrors := r.writeErrors ++ [⟨idx, c, m⟩] }

/-- Modelled from the spec: the Result Aggregator merge of section 4.3 —
purely a fold of applyOutcome over the (originalIndex, outcome) sequence,
starting from the empty result. -/
def merge (outcomes : List (Nat × OperationOutcome)) : BulkResult :=
  outcomes.foldl (fun r p => applyOutcome r p.1 p.2) emptyResult

/-- Modelled from the spec: the execute-time failures of section 7 that
abort the whole operation — EmptyBatchError, and a TransportFault which in
unordered mode still carries the result aggregated from the operations
already completed (section 4.2 step 5 and section 8). -/
inductive ExecFailure where
  | emptyBatch
  | transportFault (code : Nat) (message : String) (progress : BulkResult)
deriving DecidableEq

/-- Modelled from the spec: the Execution Engine iteration of section 4.2,
submitting the operations in append order starting at index i. Returns
the (index, outcome) list collected, the transport fault encountered (if
any), and the submission trace: the (index, operation) pairs actually
handed to the executor, in submission order. A fault halts iteration in
both modes; in ordered mode the first error outcome is recorded and
iteration stops; otherwise iteration continues. -/
def runFrom {Doc : Type} (exec : Nat → Operation Doc → PerformResult) (ordered : Bool)
    (i : Nat) : List (Operation Doc) →
    List (Nat × OperationOutcome) × Option (Nat × String) × List (Nat × Operation Doc)
  | [] => ([], none, [])
  | op :: rest =>
    match exec i op with
    | .fault c m => ([], some (c, m), [(i, op)])
    | .outcome o =>
      if ordered && o.isError then ([(i, o)], none, [(i, op)])
      else
        let r := runFrom exec ordered (i + 1) rest
        ((i, o) :: r.1, r.2.1, (i, op) :: r.2.2)

/-- Modelled from the spec: the Execution Engine execute of section 4.2.
An empty batch fails with EmptyBatchError before any executor call; else
the operations are iterated from index 0, the collected outcomes are
merged into a BulkResult, and a transport fault is surfaced as a fatal
failure carrying the result merged so far. Returns the outcome paired
with the submission trace. -/
def executeBatch {Doc : Type} (exec : Nat → Operation Doc → PerformResult) (b : Batch Doc) :
    Except ExecFailure BulkResult × List (Nat × Operation Doc) :=
  if b.ops.isEmpty then (.error .emptyBatch, [])
  else
    let r := runFrom exec b.opts.ordered 0 b.ops
    match r.2.1 with
    | some (c, m) => (.error (.transportFault c m (merge r.1)), r.2.2)
    | none => (.ok (merge r.1), r.2.2)

/-! ### Part III: supporting functions and lemmas -/

/-- Operations paired with their zero-based positions, starting at i: the
original append order the spec's index bookkeeping refers to. -/
def indexedFrom {α : Type} (i : Nat) : List α → List (Nat × α)
  | [] => []
  | a :: rest => (i, a) :: indexedFrom (i + 1) rest

/-- The outcome carried by a perform result, with a default for the fault
case (only used under hypotheses that exclude faults). -/
def outcomeOfD : PerformResult → OperationOutcome
  | .outcome o => o
  | .fault _ _ => .error 0 ""

/-- Whether a perform result is a per-operation write-error outcome. -/
def isErrorResult : PerformResult → Bool
  | .outcome o => o.isError
  | .fault _ _ => false

/-- Contribution of one outcome to insertedCount. -/
def insertedOf : OperationOutcome → Nat
  | .inserted => 1
  | _ => 0

/-- Contribution of one outcome to matchedCount. -/
def matchedOf : OperationOutcome → Nat
  | .matched c _ _ => c
  | _ => 0

/-- Contribution of one outcome to modifiedCount. -/
def modifiedOf : OperationOutcome → Nat
  | .matched _ m _ => m
  | _ => 0

/-- Contribution of one outcome to deletedCount. -/
def deletedOf : OperationOutcome → Nat
  | .deleted c => c
  | _ => 0

/-- Contribution of one outcome to upsertedCount. -/
def upsertedOf : OperationOutcome → Nat
  | .matched _ _ (some _) => 1
  | _ => 0

/-- The upserted-id entry an indexed outcome contributes, if any. -/
def upsertEntryOf : Nat × OperationOutcome → Option (Nat × Nat)
  | (i, .matched _ _ (some id)) => some (i, id)
  | _ => none

/-- The write-error entry an indexed outcome contributes, if any. -/
def errEntryOf : Nat × OperationOutcome → Option WriteErrorEntry
  | (i, .error c m) => some ⟨i, c, m⟩
  | _ => none

/-- The five aggregate counters of a BulkResult, as one tuple. -/
def countsOf (r : BulkResult) : Nat × Nat × Nat × Nat × Nat :=
  (r.insertedCount, r.matchedCount, r.modifiedCount, r.deletedCount, r.upsertedCount)

/-- A concrete operation over Nat documents, for evaluating the engine on
explicit batches. -/
def sampleOp (n : Nat) : Operation Nat :=
  { kind := OpKind.insertOne, filter := none, payload := n, collation := none, upsert := none }

/-- A concrete three-operation unordered batch. -/
def sampleBatchU : Batch Nat :=
  { ops := [sampleOp 10, sampleOp 11, sampleOp 12],
    opts := { ordered := false, writeConcern := none, bypassValidation := none },
    executed := false }

/-- A concrete executor whose second operation fails with a write error
and all others succeed. -/
def sampleExecU : Nat → Operation Nat → PerformResult := fun i _ =>
  if i = 1 then .outcome (.error 7 "dup") else .outcome .inserted

/-- A concrete three-operation ordered batch. -/
def sampleBatchO : Batch Nat :=
  { ops := [sampleOp 10, sampleOp 11, sampleOp 12],
    opts := { ordered := true, writeConcern := none, bypassValidation := none },
    executed := false }

/-- A concrete executor whose second operation raises a transport fault
and all others succeed. -/
def sampleExecF : Nat → Operation Nat → PerformResult := fun i _ =>
  if i = 1 then .fault 13 "conn" else .outcome .inserted

/-- A concrete executor whose third operation reports an upsert and whose
second fails with a write error. -/
def sampleExecX : Nat → Operation Nat → PerformResult := fun i _ =>
  if i = 1 then .outcome (.error 7 "dup")
  else if i = 2 then .outcome (.matched 0 0 (some 42))
  else .outcome .inserted

/-- A concrete empty batch whose execution has already begun. -/
def emptyBatchExecuted : Batch Nat :=
  { ops := [], opts := { ordered := true, writeConcern := none, bypassValidation := none },
    executed := true }

/-- A concrete empty batch whose execution has not begun. -/
def emptyBatchFresh : Batch Nat :=
  { ops := [], opts := { ordered := true, writeConcern := none, bypassValidation := none },
    executed := false }

/-- A concrete DeleteOne operation with its upsert option set. -/
def sampleDeleteUpsertOp : Operation Nat :=
  { kind := OpKind.deleteOne, filter := some 1, payload := 0, collation := none,
    upsert := some true }

/-- A concrete native oracle that reports failure on every call. -/
def failOracle : NativeCall Nat → Bool := fun _ => false

/-- A concrete native error record producer. -/
def constErr : NativeCall Nat → BsonError := fun _ => { code := 5, message := "err" }

lemma foldl_applyOutcome_eq (outs : List (Nat × OperationOutcome)) :
    ∀ r : BulkResult, outs.foldl (fun r p => applyOutcome r p.1 p.2) r =
      { insertedCount := r.insertedCount + (outs.map fun p => insertedOf p.2).sum,
        matchedCount := r.matchedCount + (outs.map fun p => matchedOf p.2).sum,
        modifiedCount := r.modifiedCount + (outs.map fun p => modifiedOf p.2).sum,
        deletedCount := r.deletedCount + (outs.map fun p => deletedOf p.2).sum,
        upsertedCount := r.upsertedCount + (outs.map fun p => upsertedOf p.2).sum,
        upsertedIds := r.upsertedIds ++ outs.filterMap upsertEntryOf,
        writeErrors := r.writeErrors ++ outs.filterMap errEntryOf,
        writeConcernError := r.writeConcernError } := by
  induction outs with
  | nil => intro r; simp
  | cons q t ih =>
    intro r
    obtain ⟨i, o⟩ := q
    rw [List.foldl_cons, ih]
    cases o with
    | inserted =>
      simp [applyOutcome, insertedOf, matchedOf, modifiedOf, deletedOf, upsertedOf,
        upsertEntryOf, errEntryOf, Nat.add_assoc]
    | matched c m u =>
      cases u <;>
        simp [applyOutcome, insertedOf, matchedOf, modifiedOf, deletedOf, upsertedOf,
          upsertEntryOf, errEntryOf, Nat.add_assoc]
    | deleted c =>
      simp [applyOutcome, insertedOf, matchedOf, modifiedOf, deletedOf, upsertedOf,
        upsertEntryOf, errEntryOf, Nat.add_assoc]
    | error c m =>
      simp [applyOutcome, insertedOf, matchedOf, modifiedOf, deletedOf, upsertedOf,
        upsertEntryOf, errEntryOf, Nat.add_assoc]

/-- The Result Aggregator in closed form: each counter is the sum of the
per-outcome contributions, and the entry lists collect the upserted-id and
write-error entries in outcome order. -/
lemma merge_eq (outs : List (Nat × OperationOutcome)) :
    merge outs =
      { insertedCount := (outs.map fun p => insertedOf p.2).sum,
        matchedCount := (outs.map fun p => matchedOf p.2).sum,
        modifiedCount := (outs.map fun p => modifiedOf p.2).sum,
        deletedCount := (outs.map fun p => deletedOf p.2).sum,
        upsertedCount := (outs.map fun p => upsertedOf p.2).sum,
        upsertedIds := outs.filterMap upsertEntryOf,
        writeErrors := outs.filterMap errEntryOf,
        writeConcernError := none } := by
  simpa [merge, emptyResult] using foldl_applyOutcome_eq outs emptyResult

lemma errEntryOf_none_of_not_isError (i : Nat) (o : OperationOutcome)
    (h : o.isError = false) : errEntryOf (i, o) = none := by
  cases o <;> simp_all [errEntryOf, OperationOutcome.isError]

lemma errEntryOf_eq_some (i : Nat) (o : OperationOutcome) (e : WriteErrorEntry) :
    errEntryOf (i, o) = some e ↔ i = e.index ∧ o = .error e.code e.message := by
  obtain ⟨ei, ec, em⟩ := e
  cases o <;> simp [errEntryOf]

lemma upsertEntryOf_eq_some (i : Nat) (o : OperationOutcome) (q : Nat × Nat) :
    upsertEntryOf (i, o) = some q ↔
      i = q.1 ∧ ∃ c m, o = .matched c m (some q.2) := by
  obtain ⟨qi, qid⟩ := q
  cases o with
  | matched c m u => cases u <;> simp [upsertEntryOf]
  | inserted => simp [upsertEntryOf]
  | deleted c => simp [upsertEntryOf]
  | error c m => simp [upsertEntryOf]

lemma mem_indexedFrom {α : Type} (l : List α) :
    ∀ (i : Nat) (p : Nat × α), p ∈ indexedFrom i l →
      i ≤ p.1 ∧ p.1 < i + l.length ∧ l.get? (p.1 - i) = some p.2 := by
  induction l with
  | nil => intro i p hp; simp [indexedFrom] at hp
  | cons a t ih =>
    intro i p hp
    simp only [indexedFrom, List.mem_cons] at hp
    rcases hp with rfl | hp
    · simp
    · obtain ⟨h1, h2, h3⟩ := ih (i + 1) p hp
      refine ⟨by omega, by simp; omega, ?_⟩
      have hs : p.1 - i = (p.1 - (i + 1)) + 1 := by omega
      rw [hs]
      simpa using h3

/-- When no operation of the list halts iteration at its position, the
engine submits every operation in order and collects every outcome. -/
lemma runFrom_no_halt {Doc : Type} (exec : Nat → Operation Doc → PerformResult)
    (ordered : Bool) (ops : List (Operation Doc)) :
    ∀ i : Nat, (∀ p ∈ indexedFrom i ops, haltsMode ordered (exec p.1 p.2) = false) →
      runFrom exec ordered i ops =
        ((indexedFrom i ops).map (fun p => (p.1, outcomeOfD (exec p.1 p.2))), none,
          indexedFrom i ops) := by
  induction ops with
  | nil => intro i _; simp [runFrom, indexedFrom]
  | cons op rest ih =>
    intro i h
    have hhead : haltsMode ordered (exec i op) = false :=
      h (i, op) (by simp [indexedFrom])
    cases hx : exec i op with
    | fault c m => rw [hx] at hhead; simp [haltsMode] at hhead
    | outcome o =>
      rw [hx] at hhead
      have hoo : (ordered && o.isError) = false := by simpa [haltsMode] using hhead
      have htail := ih (i + 1) (by intro p hp; exact h p (by simp [indexedFrom, hp]))
      simp [runFrom, hx, hoo, indexedFrom, htail, outcomeOfD]

/-- Splitting the iteration: when no operation of the first segment halts
iteration at its position, the engine runs the whole first segment and
continues into the second at the shifted index. -/
lemma runFrom_split {Doc : Type} (exec : Nat → Operation Doc → PerformResult)
    (ordered : Bool) (l₁ l₂ : List (Operation Doc)) :
    ∀ i : Nat, (∀ p ∈ indexedFrom i l₁, haltsMode ordered (exec p.1 p.2) = false) →
      runFrom exec ordered i (l₁ ++ l₂) =
        (((indexedFrom i l₁).map fun p => (p.1, outcomeOfD (exec p.1 p.2))) ++
            (runFrom exec ordered (i + l₁.length) l₂).1,
          (runFrom exec ordered (i + l₁.length) l₂).2.1,
          indexedFrom i l₁ ++ (runFrom exec ordered (i + l₁.length) l₂).2.2) := by
  induction l₁ with
  | nil => intro i _; simp [indexedFrom]
  | cons op rest ih =>
    intro i h
    have hhead : haltsMode ordered (exec i op) = false :=
      h (i, op) (by simp [indexedFrom])
    cases hx : exec i op with
    | fault c m => rw [hx] at hhead; simp [haltsMode] at hhead
    | outcome o =>
      rw [hx] at hhead
      have hoo : (ordered && o.isError) = false := by simpa [haltsMode] using hhead
      have htail := ih (i + 1) (by intro p hp; exact h p (by simp [indexedFrom, hp]))
      simp [runFrom, hx, hoo, indexedFrom, htail, outcomeOfD, Nat.add_assoc, Nat.add_comm 1]

/-- Every submitted index is at least the starting index. -/
lemma runFrom_trace_ge {Doc : Type} (exec : Nat → Operation Doc → PerformResult)
    (ordered : Bool) (ops : List (Operation Doc)) :
    ∀ i : Nat, ∀ p ∈ (runFrom exec ordered i ops).2.2, i ≤ p.1 := by
  induction ops with
  | nil => intro i p hp; simp [runFrom] at hp
  | cons op rest ih =>
    intro i p hp
    cases hx : exec i op with
    | fault c m =>
      rw [runFrom, hx] at hp
      simp at hp
      simp [hp]
    | outcome o =>
      rw [runFrom, hx] at hp
      by_cases ho : (ordered && o.isError) = true
      · simp [ho] at hp; simp [hp]
      · simp [eq_false_of_ne_true ho] at hp
        rcases hp with rfl | hp
        · simp
        · have := ih (i + 1) p hp
          omega

/-- Every submitted pair comes from the indexed operation list. -/
lemma runFrom_trace_sub {Doc : Type} (exec : Nat → Operation Doc → PerformResult)
    (ordered : Bool) (ops : List (Operation Doc)) :
    ∀ i : Nat, ∀ p ∈ (runFrom exec ordered i ops).2.2, p ∈ indexedFrom i ops := by
  induction ops with
  | nil => intro i p hp; simp [runFrom] at hp
  | cons op rest ih =>
    intro i p hp
    cases hx : exec i op with
    | fault c m =>
      rw [runFrom, hx] at hp
      simp at hp
      simp [indexedFrom, hp]
    | outcome o =>
      rw [runFrom, hx] at hp
      by_cases ho : (ordered && o.isError) = true
      · simp [ho] at hp; simp [indexedFrom, hp]
      · simp [eq_false_of_ne_true ho] at hp
        rcases hp with rfl | hp
        · simp [indexedFrom]
        · simp [indexedFrom, ih (i + 1) p hp]

/-- Every collected outcome is the executor's response for an operation
that was actually submitted, at its submitted index. -/
lemma runFrom_outcomes_sound {Doc : Type} (exec : Nat → Operation Doc → PerformResult)
    (ordered : Bool) (ops : List (Operation Doc)) :
    ∀ i : Nat, ∀ q ∈ (runFrom exec ordered i ops).1,
      ∃ op, (q.1, op) ∈ (runFrom exec ordered i ops).2.2 ∧ exec q.1 op = .outcome q.2 := by
  induction ops with
  | nil => intro i q hq; simp [runFrom] at hq
  | cons op rest ih =>
    intro i q hq
    cases hx : exec i op with
    | fault c m => rw [runFrom, hx] at hq; simp at hq
    | outcome o =>
      rw [runFrom, hx]
      rw [runFrom, hx] at hq
      by_cases ho : (ordered && o.isError) = true
      · simp [ho] at hq ⊢
        subst hq
        exact ⟨op, ⟨rfl, rfl⟩, hx⟩
      · simp [eq_false_of_ne_true ho] at hq ⊢
        rcases hq with rfl | hq
        · exact ⟨op, Or.inl ⟨rfl, rfl⟩, hx⟩
        · obtain ⟨op', hmem, hex⟩ := ih (i + 1) q hq
          exact ⟨op', Or.inr hmem, hex⟩

/-- Ordered mode stops at the first error outcome: no operation is
submitted after one whose perform result is a write error. -/
lemma runFrom_ordered_stop {Doc : Type} (exec : Nat → Operation Doc → PerformResult)
    (ops : List (Operation Doc)) :
    ∀ i : Nat, ∀ p q : Nat × Operation Doc,
      p ∈ (runFrom exec true i ops).2.2 → q ∈ (runFrom exec true i ops).2.2 →
      isErrorResult (exec p.1 p.2) = true → q.1 ≤ p.1 := by
  induction ops with
  | nil => intro i p q hp _ _; simp [runFrom] at hp
  | cons op rest ih =>
    intro i p q hp hq herr
    cases hx : exec i op with
    | fault c m =>
      rw [runFrom, hx] at hp hq
      simp at hp hq
      simp [hp, hq]
    | outcome o =>
      rw [runFrom, hx] at hp hq
      by_cases ho : (true && o.isError) = true
      · simp [ho] at hp hq
        simp [hp, hq]
      · have herrF : o.isError = false := by simpa using eq_false_of_ne_true ho
        simp [eq_false_of_ne_true ho] at hp hq
        rcases hp with rfl | hp
        · simp [hx, isErrorResult, herrF] at herr
        · rcases hq with rfl | hq
          · have h2 := runFrom_trace_ge exec true rest (i + 1) p hp
            show i ≤ p.1
            omega
          · exact ih (i + 1) p q hp hq herr

/-- On a nonempty batch, the submission trace of execute is the trace of
the iteration, whether or not a fault occurred. -/
lemma executeBatch_trace {Doc : Type} (exec : Nat → Operation Doc → PerformResult)
    (b : Batch Doc) (h : b.ops.isEmpty = false) :
    (executeBatch exec b).2 = (runFrom exec b.opts.ordered 0 b.ops).2.2 := by
  cases hr : (runFrom exec b.opts.ordered 0 b.ops).2.1 with
  | none => simp [executeBatch, h, hr]
  | some cm => obtain ⟨c, m⟩ := cm; simp [executeBatch, h, hr]

/-- On a nonempty batch, the result delivered by execute — through the
success branch or inside a transport-fault failure — is the merge of the
collected outcomes. -/
lemma executeBatch_result {Doc : Type} (exec : Nat → Operation Doc → PerformResult)
    (b : Batch Doc) (h : b.ops.isEmpty = false) (r : BulkResult)
    (hr : (executeBatch exec b).1 = .ok r ∨
      ∃ c m, (executeBatch exec b).1 = .error (.transportFault c m r)) :
    r = merge (runFrom exec b.opts.ordered 0 b.ops).1 := by
  cases hf : (runFrom exec b.opts.ordered 0 b.ops).2.1 with
  | none =>
    rcases hr with hr | ⟨c, m, hr⟩
    · simp [executeBatch, h, hf] at hr
      exact hr.symm
    · simp [executeBatch, h, hf] at hr
  | some cm =>
    obtain ⟨c₀, m₀⟩ := cm
    rcases hr with hr | ⟨c, m, hr⟩
    · simp [executeBatch, h, hf] at hr
    · simp [executeBatch, h, hf] at hr
      exact hr.2.2.symm

/-! ### Claim theorems -/

/-- C4: executing a batch that contains zero operations fails immediately
with EmptyBatchError, and the write-executor collaborator is never called:
the submission trace is empty. -/
theorem empty_batch_fails {Doc : Type} (exec : Nat → Operation Doc → PerformResult)
    (o : BatchOptions) (e : Bool) :
    executeBatch exec { ops := [], opts := o, executed := e } =
      (Except.error ExecFailure.emptyBatch, ([] : List (Nat × Operation Doc))) := rfl

/-- C5: once a batch has begun execution, append fails with InvalidState —
it returns the InvalidState error and never an updated batch, so the
batch's operation sequence is not modified. -/
theorem append_after_execute_invalid_state {Doc : Type} (b : Batch Doc)
    (op : Operation Doc) (h : b.executed = true) :
    b.append op = Except.error BuilderError.invalidState ∧
    ∀ b' : Batch Doc, b.append op ≠ Except.ok b' := by
  constructor
  · simp [Batch.append, h]
  · intro b' hc
    simp [Batch.append, h] at hc

/-- Witness for C5, at a concrete batch whose execution has begun. -/
theorem append_after_execute_invalid_state_witness :
    emptyBatchExecuted.executed = true ∧
    Batch.append emptyBatchExecuted (sampleOp 0) = Except.error BuilderError.invalidState :=
  ⟨rfl, (append_after_execute_invalid_state _ _ rfl).1⟩

/-- C6: on a batch whose execution has not begun, append fails with
InvalidArgument when the filter is missing on a kind other than InsertOne,
when upsert is set on a kind that forbids it, or when collation is set on
a kind that forbids it; in particular a DeleteOne operation with upsert
set is rejected with InvalidArgument. -/
theorem append_invalid_argument {Doc : Type} (b : Batch Doc) (op : Operation Doc)
    (hb : b.executed = false) :
    (op.kind ≠ OpKind.insertOne → op.filter = none →
      b.append op = Except.error BuilderError.invalidArgument) ∧
    (op.upsert.isSome = true → kindAllowsUpsert op.kind = false →
      b.append op = Except.error BuilderError.invalidArgument) ∧
    (op.collation.isSome = true → kindAllowsCollation op.kind = false →
      b.append op = Except.error BuilderError.invalidArgument) ∧
    (op.kind = OpKind.deleteOne → op.upsert.isSome = true →
      b.append op = Except.error BuilderError.invalidArgument) := by
  have happ : validateOperation op = Except.error BuilderError.invalidArgument →
      b.append op = Except.error BuilderError.invalidArgument := by
    intro hv
    simp [Batch.append, hb, hv]
  refine ⟨fun h1 h2 => happ ?_, fun h1 h2 => happ ?_, fun h1 h2 => happ ?_,
    fun h1 h2 => happ ?_⟩
  · simp [validateOperation, h1, h2]
  · simp [validateOperation, h1, h2]
  · simp [validateOperation, h1, h2]
  · simp [validateOperation, h1, h2, kindAllowsUpsert]

/-- Witness for C6: a DeleteOne operation with upsert set is rejected. -/
theorem append_invalid_argument_witness :
    emptyBatchFresh.executed = false ∧
    sampleDeleteUpsertOp.kind = OpKind.deleteOne ∧
    sampleDeleteUpsertOp.upsert.isSome = true ∧
    Batch.append emptyBatchFresh sampleDeleteUpsertOp =
      Except.error BuilderError.invalidArgument :=
  ⟨rfl, rfl, rfl, (append_invalid_argument _ _ rfl).2.2.2 rfl rfl⟩

/-- C8: a successful append's only effect is to add the operation at the
end of the batch's ordered sequence: the new sequence is the old one with
the operation appended, so previously appended operations are unchanged,
the options and the executed flag are untouched, and no I/O happens — the
source's append never issues the native execute call. -/
theorem append_ok_frame {Doc : Type} (b b' : Batch Doc) (op : Operation Doc)
    (h : b.append op = Except.ok b') :
    b'.ops = b.ops ++ [op] ∧
    b'.ops.take b.ops.length = b.ops ∧
    b'.opts = b.opts ∧
    b'.executed = b.executed ∧
    (∀ w : ModelWrite Doc, NativeCall.execute_op ∉ appendNativeCalls w) := by
  have hops : b' = { b with ops := b.ops ++ [op] } := by
    by_cases he : b.executed
    · simp [Batch.append, he] at h
    · have hbe : b.executed = false := by simpa using he
      rw [Batch.append] at h
      simp [he] at h
      cases hv : validateOperation op with
      | error e => rw [hv] at h; simp at h
      | ok u => rw [hv] at h; simp at h; rw [hbe]; exact h.symm
  subst hops
  refine ⟨rfl, by simp, rfl, rfl, ?_⟩
  intro w
  cases w <;> simp [appendNativeCalls, appendCall]

/-- Witness for C8 at a concrete append that succeeds. -/
theorem append_ok_frame_witness :
    Batch.append emptyBatchFresh (sampleOp 7) =
      Except.ok { emptyBatchFresh with ops := [sampleOp 7] } ∧
    ({ emptyBatchFresh with ops := [sampleOp 7] } : Batch Nat).ops =
      emptyBatchFresh.ops ++ [sampleOp 7] :=
  ⟨rfl, (append_ok_frame emptyBatchFresh { emptyBatchFresh with ops := [sampleOp 7] }
      (sampleOp 7) rfl).1⟩

/-- For every kind other than insert_one, append reduces to the native
*_with_opts call: success hands back the call, failure throws the native
error. -/
lemma bulkAppend_non_insert {Doc : Type} (nativeOk : NativeCall Doc → Bool)
    (nativeErr : NativeCall Doc → BsonError) (op : ModelWrite Doc)
    (h : op.writeType ≠ WriteType.k_insert_one) :
    bulkAppend nativeOk nativeErr op =
      if nativeOk (appendCall op) then Except.ok (appendCall op)
      else Except.error (nativeErr (appendCall op)) := by
  cases op with
  | insert_one d => exact absurd rfl h
  | update_one f g col ups => rfl
  | update_many f g col ups => rfl
  | delete_one f col => rfl
  | delete_many f col => rfl
  | replace_one f r col ups => rfl

/-- C9: for every appended update-one, update-many or replace-one
operation, the options document passed to the native call contains a
collation key iff the collation option is set and an upsert key iff the
upsert option is set; for delete-one and delete-many it contains the
collation key iff set and never an upsert key; for insert-one no options
document is built at all. -/
theorem append_options_doc_spec {Doc : Type} (f g r d : Doc) (col : Option Doc)
    (ups : Option Bool) :
    appendOptionsDoc (ModelWrite.insert_one d) = none ∧
    appendCall (ModelWrite.update_one f g col ups)
      = NativeCall.update_one_with_opts f g (buildUpdateOptions col ups) ∧
    appendCall (ModelWrite.update_many f g col ups)
      = NativeCall.update_many_with_opts f g (buildUpdateOptions col ups) ∧
    appendCall (ModelWrite.replace_one f r col ups)
      = NativeCall.replace_one_with_opts f r (buildUpdateOptions col ups) ∧
    appendCall (ModelWrite.delete_one f col)
      = NativeCall.remove_one_with_opts f (buildDeleteOptions col) ∧
    appendCall (ModelWrite.delete_many f col)
      = NativeCall.remove_many_with_opts f (buildDeleteOptions col) ∧
    (("collation" ∈ (buildUpdateOptions col ups).map Prod.fst) ↔ col.isSome = true) ∧
    (("upsert" ∈ (buildUpdateOptions col ups).map Prod.fst) ↔ ups.isSome = true) ∧
    (("collation" ∈ (buildDeleteOptions col).map Prod.fst) ↔ col.isSome = true) ∧
    ("upsert" ∉ (buildDeleteOptions col).map Prod.fst) := by
  refine ⟨rfl, rfl, rfl, rfl, rfl, rfl, ?_, ?_, ?_, ?_⟩ <;>
    cases col <;> cases ups <;> simp [buildUpdateOptions, buildDeleteOptions]

/-- C10: append on an insert_one operation has no failure path; for every
other kind append fails iff the native *_with_opts call reports failure,
and the thrown error is exactly the native library's error record. -/
theorem append_failure_iff {Doc : Type} (nativeOk : NativeCall Doc → Bool)
    (nativeErr : NativeCall Doc → BsonError) (op : ModelWrite Doc) :
    (∀ d : Doc, bulkAppend nativeOk nativeErr (ModelWrite.insert_one d)
      = Except.ok (NativeCall.insert d)) ∧
    (op.writeType ≠ WriteType.k_insert_one →
      ((∃ e, bulkAppend nativeOk nativeErr op = Except.error e) ↔
          nativeOk (appendCall op) = false) ∧
      (nativeOk (appendCall op) = false →
        bulkAppend nativeOk nativeErr op = Except.error (nativeErr (appendCall op)))) := by
  refine ⟨fun d => rfl, fun hni => ?_⟩
  rw [bulkAppend_non_insert nativeOk nativeErr op hni]
  by_cases hok : nativeOk (appendCall op) = true
  · constructor
    · simp [hok]
    · intro hfalse
      rw [hok] at hfalse
      cases hfalse
  · have hf : nativeOk (appendCall op) = false := by simpa using hok
    constructor
    · simp [hf]
    · intro _
      simp [hf]

/-- Witness for C10, at a delete_one with an always-failing native
oracle. -/
theorem append_failure_iff_witness :
    (ModelWrite.delete_one (0 : Nat) none).writeType ≠ WriteType.k_insert_one ∧
    bulkAppend failOracle constErr (ModelWrite.delete_one 0 none)
      = Except.error { code := 5, message := "err" } :=
  ⟨by decide, ((append_failure_iff failOracle constErr
      (ModelWrite.delete_one 0 none)).2 (by decide)).2 rfl⟩

/-- With ordered mode off, an operation halts iteration exactly when it
raises a transport fault. -/
lemma haltsMode_false_eq_isFault (pr : PerformResult) :
    haltsMode false pr = pr.isFault := by
  cases pr <;> simp [haltsMode, PerformResult.isFault]

lemma sum_map_filter_not_isError (f : OperationOutcome → Nat)
    (hf : ∀ o : OperationOutcome, o.isError = true → f o = 0)
    (outs : List (Nat × OperationOutcome)) :
    (outs.map fun p => f p.2).sum =
      ((outs.filter fun q => !q.2.isError).map fun p => f p.2).sum := by
  induction outs with
  | nil => rfl
  | cons q t ih =>
    obtain ⟨i, o⟩ := q
    cases ho : o.isError with
    | true => simp [List.filter_cons, ho, hf o ho, ih]
    | false => simp [List.filter_cons, ho, ih]

/-- The aggregate counters ignore error outcomes: merging all outcomes and
merging only the successful ones produce the same counts. -/
lemma countsOf_merge_filter (outs : List (Nat × OperationOutcome)) :
    countsOf (merge outs) = countsOf (merge (outs.filter fun q => !q.2.isError)) := by
  have h1 := sum_map_filter_not_isError insertedOf
    (by intro o ho; cases o <;> simp_all [OperationOutcome.isError, insertedOf]) outs
  have h2 := sum_map_filter_not_isError matchedOf
    (by intro o ho; cases o <;> simp_all [OperationOutcome.isError, matchedOf]) outs
  have h3 := sum_map_filter_not_isError modifiedOf
    (by intro o ho; cases o <;> simp_all [OperationOutcome.isError, modifiedOf]) outs
  have h4 := sum_map_filter_not_isError deletedOf
    (by intro o ho; cases o <;> simp_all [OperationOutcome.isError, deletedOf]) outs
  have h5 := sum_map_filter_not_isError upsertedOf
    (by intro o ho; cases o <;> simp_all [OperationOutcome.isError, upsertedOf]) outs
  simp [countsOf, merge_eq, h1, h2, h3, h4, h5]

/-- C1: in ordered mode, with operation 0 succeeding and operation 1
failing with a write error, operation 2 is never submitted, the submission
trace stops right after index 1, the result's writeErrors is exactly the
one entry with index 1, and the counts equal those of operation 0 alone;
in general, in ordered mode no operation is ever submitted after one whose
perform result is a write error. -/
theorem ordered_stops_after_first_error {Doc : Type}
    (exec : Nat → Operation Doc → PerformResult) (a₀ a₁ a₂ : Operation Doc)
    (bo : BatchOptions) (o₀ : OperationOutcome) (c : Nat) (msg : String)
    (hord : bo.ordered = true)
    (h₀ : exec 0 a₀ = .outcome o₀) (h₀ok : o₀.isError = false)
    (h₁ : exec 1 a₁ = .outcome (.error c msg)) :
    (executeBatch exec ⟨[a₀, a₁, a₂], bo, false⟩).2 = [(0, a₀), (1, a₁)] ∧
    (∀ op : Operation Doc, (2, op) ∉ (executeBatch exec ⟨[a₀, a₁, a₂], bo, false⟩).2) ∧
    (executeBatch exec ⟨[a₀, a₁, a₂], bo, false⟩).1
      = Except.ok (merge [(0, o₀), (1, OperationOutcome.error c msg)]) ∧
    (merge [(0, o₀), (1, OperationOutcome.error c msg)]).writeErrors
      = [⟨1, c, msg⟩] ∧
    countsOf (merge [(0, o₀), (1, OperationOutcome.error c msg)])
      = countsOf (merge [(0, o₀)]) ∧
    (∀ (exec' : Nat → Operation Doc → PerformResult) (b : Batch Doc),
      b.opts.ordered = true →
      ∀ p q : Nat × Operation Doc, p ∈ (executeBatch exec' b).2 →
        q ∈ (executeBatch exec' b).2 → isErrorResult (exec' p.1 p.2) = true →
        q.1 ≤ p.1) := by
  have hrun : runFrom exec true 0 [a₀, a₁, a₂]
      = ([(0, o₀), (1, OperationOutcome.error c msg)], none, [(0, a₀), (1, a₁)]) := by
    rw [runFrom, h₀]
    simp only [h₀ok, Bool.and_false, Bool.false_eq_true, if_false]
    rw [runFrom, h₁]
    simp [OperationOutcome.isError]
  have hres : executeBatch exec ⟨[a₀, a₁, a₂], bo, false⟩
      = (Except.ok (merge [(0, o₀), (1, OperationOutcome.error c msg)]),
          [(0, a₀), (1, a₁)]) := by
    simp [executeBatch, hord, hrun]
  refine ⟨by rw [hres], ?_, by rw [hres], ?_, ?_, ?_⟩
  · intro op hmem
    rw [hres] at hmem
    simp at hmem
  · show (merge [(0, o₀), (1, OperationOutcome.error c msg)]).writeErrors = _
    rw [merge_eq]
    show List.filterMap errEntryOf [(0, o₀), (1, OperationOutcome.error c msg)] = _
    rw [List.filterMap_cons, errEntryOf_none_of_not_isError 0 o₀ h₀ok]
    simp [errEntryOf]
  · simp [countsOf, merge_eq, insertedOf, matchedOf, modifiedOf, deletedOf, upsertedOf]
  · intro exec' b hbord p q hp hq herr
    cases hops : b.ops with
    | nil => simp [executeBatch, hops] at hp
    | cons x t =>
      have hne : b.ops.isEmpty = false := by simp [hops]
      rw [executeBatch_trace exec' b hne, hbord] at hp hq
      exact runFrom_ordered_stop exec' b.ops 0 p q hp hq herr

/-- Witness for C1, at a concrete ordered batch whose second operation
fails with a write error. -/
theorem ordered_stops_after_first_error_witness :
    sampleBatchO.opts.ordered = true ∧
    sampleExecU 0 (sampleOp 10) = .outcome .inserted ∧
    OperationOutcome.inserted.isError = false ∧
    sampleExecU 1 (sampleOp 11) = .outcome (.error 7 "dup") ∧
    (executeBatch sampleExecU sampleBatchO).2 = [(0, sampleOp 10), (1, sampleOp 11)] :=
  ⟨rfl, rfl, rfl, rfl,
    (ordered_stops_after_first_error sampleExecU (sampleOp 10) (sampleOp 11) (sampleOp 12)
      sampleBatchO.opts OperationOutcome.inserted 7 "dup" rfl rfl rfl rfl).1⟩

/-- C2: in unordered mode, with no transport fault, every operation is
submitted with its original index regardless of per-operation errors, the
result merges the outcome of every operation, the aggregate counts equal
those of the successful outcomes alone, and the result signals batch-level
failure — a nonempty writeErrors — iff at least one operation returned a
write error. -/
theorem unordered_submits_all {Doc : Type}
    (exec : Nat → Operation Doc → PerformResult) (b : Batch Doc)
    (hord : b.opts.ordered = false) (hne : b.ops.isEmpty = false)
    (hnf : ∀ p ∈ indexedFrom 0 b.ops, (exec p.1 p.2).isFault = false) :
    (executeBatch exec b).2 = indexedFrom 0 b.ops ∧
    (executeBatch exec b).1 = Except.ok
      (merge ((indexedFrom 0 b.ops).map fun p => (p.1, outcomeOfD (exec p.1 p.2)))) ∧
    countsOf (merge ((indexedFrom 0 b.ops).map fun p => (p.1, outcomeOfD (exec p.1 p.2))))
      = countsOf (merge (((indexedFrom 0 b.ops).map
          fun p => (p.1, outcomeOfD (exec p.1 p.2))).filter fun q => !q.2.isError)) ∧
    ((merge ((indexedFrom 0 b.ops).map fun p => (p.1, outcomeOfD (exec p.1 p.2)))).writeErrors
        ≠ [] ↔
      ∃ p ∈ indexedFrom 0 b.ops, isErrorResult (exec p.1 p.2) = true) := by
  have hh : ∀ p ∈ indexedFrom 0 b.ops, haltsMode b.opts.ordered (exec p.1 p.2) = false := by
    intro p hp
    rw [hord, haltsMode_false_eq_isFault]
    exact hnf p hp
  have hrun := runFrom_no_halt exec b.opts.ordered b.ops 0 hh
  refine ⟨?_, ?_, countsOf_merge_filter _, ?_⟩
  · rw [executeBatch_trace exec b hne, hrun]
  · simp [executeBatch, hne, hrun]
  · rw [merge_eq]
    simp only [ne_eq, List.filterMap_eq_nil_iff, not_forall]
    constructor
    · rintro ⟨q, hq, hqe⟩
      simp only [List.mem_map] at hq
      obtain ⟨p, hp, rfl⟩ := hq
      refine ⟨p, hp, ?_⟩
      have hpf := hnf p hp
      cases hpr : exec p.1 p.2 with
      | fault fc fm => rw [hpr] at hpf; simp [PerformResult.isFault] at hpf
      | outcome o =>
        rw [hpr] at hqe
        cases o <;> simp_all [errEntryOf, outcomeOfD, isErrorResult, OperationOutcome.isError]
    · rintro ⟨p, hp, hpe⟩
      refine ⟨(p.1, outcomeOfD (exec p.1 p.2)), List.mem_map_of_mem _ hp, ?_⟩
      cases hpr : exec p.1 p.2 with
      | fault fc fm => rw [hpr] at hpe; simp [isErrorResult] at hpe
      | outcome o =>
        rw [hpr] at hpe
        cases o <;> simp_all [errEntryOf, outcomeOfD, isErrorResult, OperationOutcome.isError]

/-- Witness for C2, at a concrete unordered batch whose second operation
fails with a write error. -/
theorem unordered_submits_all_witness :
    sampleBatchU.opts.ordered = false ∧
    sampleBatchU.ops.isEmpty = false ∧
    (∀ p ∈ indexedFrom 0 sampleBatchU.ops, (sampleExecU p.1 p.2).isFault = false) ∧
    (executeBatch sampleExecU sampleBatchU).2 = indexedFrom 0 sampleBatchU.ops :=
  ⟨rfl, rfl, by decide,
    (unordered_submits_all sampleExecU sampleBatchU rfl rfl (by decide)).1⟩

/-- C7: a transport fault halts execution immediately in either mode: the
operations after the faulting one are never submitted, the fault is
surfaced as the fatal failure carrying the result of the operations
already completed, and the fault itself is never folded into that result's
writeErrors — every writeErrors index lies before the fault position. -/
theorem transport_fault_halts {Doc : Type}
    (exec : Nat → Operation Doc → PerformResult) (bo : BatchOptions)
    (l₁ l₂ : List (Operation Doc)) (opf : Operation Doc) (c : Nat) (m : String)
    (h1 : ∀ p ∈ indexedFrom 0 l₁, haltsMode bo.ordered (exec p.1 p.2) = false)
    (hf : exec l₁.length opf = .fault c m) :
    (executeBatch exec ⟨l₁ ++ opf :: l₂, bo, false⟩).1 =
      Except.error (ExecFailure.transportFault c m
        (merge ((indexedFrom 0 l₁).map fun p => (p.1, outcomeOfD (exec p.1 p.2))))) ∧
    (executeBatch exec ⟨l₁ ++ opf :: l₂, bo, false⟩).2 =
      indexedFrom 0 l₁ ++ [(l₁.length, opf)] ∧
    (∀ e ∈ (merge ((indexedFrom 0 l₁).map
        fun p => (p.1, outcomeOfD (exec p.1 p.2)))).writeErrors,
      e.index < l₁.length) := by
  have hne : (l₁ ++ opf :: l₂).isEmpty = false := by cases l₁ <;> simp
  have hsplit := runFrom_split exec bo.ordered l₁ (opf :: l₂) 0 h1
  have htail : runFrom exec bo.ordered (0 + l₁.length) (opf :: l₂)
      = ([], some (c, m), [(l₁.length, opf)]) := by
    rw [Nat.zero_add, runFrom, hf]
  rw [htail] at hsplit
  refine ⟨?_, ?_, ?_⟩
  · simp [executeBatch, hne, hsplit]
  · simp [executeBatch, hne, hsplit]
  · intro e he
    rw [merge_eq] at he
    simp only [List.mem_filterMap, List.mem_map] at he
    obtain ⟨q, ⟨p, hp, rfl⟩, hq⟩ := he
    rw [errEntryOf_eq_some] at hq
    have hlt := (mem_indexedFrom l₁ 0 p hp).2.1
    omega

/-- Witness for C7, at a concrete unordered batch whose second operation
raises a transport fault. -/
theorem transport_fault_halts_witness :
    (∀ p ∈ indexedFrom 0 [sampleOp 10],
      haltsMode sampleBatchU.opts.ordered (sampleExecF p.1 p.2) = false) ∧
    sampleExecF ([sampleOp 10] : List (Operation Nat)).length (sampleOp 11)
      = .fault 13 "conn" ∧
    (executeBatch sampleExecF
        ⟨[sampleOp 10] ++ sampleOp 11 :: [sampleOp 12], sampleBatchU.opts, false⟩).2 =
      indexedFrom 0 [sampleOp 10] ++ [(([sampleOp 10] : List (Operation Nat)).length, sampleOp 11)] :=
  ⟨by decide, rfl,
    (transport_fault_halts sampleExecF sampleBatchU.opts [sampleOp 10] [sampleOp 12]
      (sampleOp 11) 13 "conn" (by decide) rfl).2.1⟩

/-- C3: the result of any executed batch — delivered on success or carried
inside a transport-fault failure — is the merge of outcomes, each the
executor's response for the operation at that zero-based position of the
original append order; hence every index in writeErrors and upsertedIds is
the original position of the operation it reports on, and the aggregate
counts equal those of the successful outcomes alone. -/
theorem index_bookkeeping {Doc : Type}
    (exec : Nat → Operation Doc → PerformResult) (b : Batch Doc) (r : BulkResult)
    (hne : b.ops.isEmpty = false)
    (hr : (executeBatch exec b).1 = Except.ok r ∨
      ∃ c m, (executeBatch exec b).1 = Except.error (.transportFault c m r)) :
    (∀ e ∈ r.writeErrors, ∃ op, b.ops.get? e.index = some op ∧
      exec e.index op = .outcome (.error e.code e.message)) ∧
    (∀ q ∈ r.upsertedIds, ∃ op, b.ops.get? q.1 = some op ∧
      ∃ mc mm, exec q.1 op = .outcome (.matched mc mm (some q.2))) ∧
    (∃ outs : List (Nat × OperationOutcome), r = merge outs ∧
      countsOf r = countsOf (merge (outs.filter fun q => !q.2.isError))) := by
  have hmerge := executeBatch_result exec b hne r hr
  have hsound := runFrom_outcomes_sound exec b.opts.ordered b.ops 0
  have hsub := runFrom_trace_sub exec b.opts.ordered b.ops 0
  refine ⟨?_, ?_, ⟨(runFrom exec b.opts.ordered 0 b.ops).1, hmerge, by
    rw [hmerge]; exact countsOf_merge_filter _⟩⟩
  · intro e he
    rw [hmerge, merge_eq] at he
    simp only [List.mem_filterMap] at he
    obtain ⟨q, hq, hqe⟩ := he
    obtain ⟨i, o⟩ := q
    rw [errEntryOf_eq_some] at hqe
    obtain ⟨rfl, rfl⟩ := hqe
    obtain ⟨op, htr, hex⟩ := hsound _ hq
    have hidx := mem_indexedFrom b.ops 0 _ (hsub _ htr)
    refine ⟨op, ?_, hex⟩
    simpa using hidx.2.2
  · intro q hq
    rw [hmerge, merge_eq] at hq
    simp only [List.mem_filterMap] at hq
    obtain ⟨w, hw, hwe⟩ := hq
    obtain ⟨i, o⟩ := w
    rw [upsertEntryOf_eq_some] at hwe
    obtain ⟨rfl, mc, mm, rfl⟩ := hwe
    obtain ⟨op, htr, hex⟩ := hsound _ hw
    have hidx := mem_indexedFrom b.ops 0 _ (hsub _ htr)
    refine ⟨op, ?_, mc, mm, hex⟩
    simpa using hidx.2.2

/-- Witness for C3, at a concrete unordered batch with one write error and
one upsert. -/
theorem index_bookkeeping_witness :
    sampleBatchU.ops.isEmpty = false ∧
    ((executeBatch sampleExecX sampleBatchU).1 =
      Except.ok (merge [(0, .inserted), (1, .error 7 "dup"),
        (2, .matched 0 0 (some 42))]) ∨
      ∃ c m, (executeBatch sampleExecX sampleBatchU).1 =
        Except.error (.transportFault c m (merge [(0, .inserted), (1, .error 7 "dup"),
          (2, .matched 0 0 (some 42))]))) ∧
    (∀ e ∈ (merge [(0, OperationOutcome.inserted), (1, OperationOutcome.error 7 "dup"),
        (2, OperationOutcome.matched 0 0 (some 42))]).writeErrors,
      ∃ op, sampleBatchU.ops.get? e.index = some op ∧
        sampleExecX e.index op = .outcome (.error e.code e.message)) :=
  ⟨rfl, Or.inl (by rfl),
    (index_bookkeeping sampleExecX sampleBatchU
      (merge [(0, .inserted), (1, .error 7 "dup"), (2, .matched 0 0 (some 42))])
      rfl (Or.inl (by rfl))).1⟩

end MongoBulk
